import Mathlib

/-!
Verification of the vcontrold XML configuration compiler (`src/xmlconfig.c`).

The development is a shallow embedding of the C translation unit:

* C strings that the code allocates with `calloc`/`strcpy` are modelled as
  `StrV` values carrying the string contents together with an allocation
  identifier drawn from a counter, so that "shared reference" (pointer
  aliasing) and "value copy" (fresh allocation) are distinguishable.
* The libxml2 document tree is modelled by `XN`: a node with a type, a name,
  text content, an attribute list, a first-child pointer and a next-sibling
  pointer, exactly the fields the C code reads.
* Every `while` loop of the C file becomes a fuel-indexed structurally
  recursive function; running out of fuel (which in the C code corresponds
  to an infinite loop) and C undefined behaviour (dereferencing a null or
  uninitialised pointer) are both modelled by the result `none`.
* Heap accounting: `Alloc.allocs` counts the entity records created with
  `calloc` (Protocol, Unit, Macro, iCmd, Command, Device, Enumerate, Allow,
  Config); `Alloc.ctr` numbers every string/byte-buffer allocation.  The
  third component returned by `parseXMLFile` counts the entity records
  released by `free`/`remove*List` during the call.  String allocations are
  deliberately not added to `allocs`: the record count alone is enough to
  reason about generation release.
-/

namespace VC

/-- Allocation instrumentation: `ctr` numbers string/buffer allocations,
`allocs` counts entity-record `calloc`s performed so far. -/
structure Alloc where
  ctr : Nat
  allocs : Nat
deriving DecidableEq

/-- A C string allocated on the heap: contents plus allocation identity.
Two `StrV`s with the same `id` model the same `char *` pointer. -/
structure StrV where
  s : String
  id : Nat
deriving DecidableEq

/-- A heap byte buffer (used for `errStr` and enumeration byte patterns). -/
structure BytesV where
  bs : List Nat
  id : Nat
deriving DecidableEq

/-- Model of `calloc`+`strcpy` of a fresh string. -/
def allocStr (a : Alloc) (s : String) : StrV × Alloc :=
  (⟨s, a.ctr⟩, { a with ctr := a.ctr + 1 })

/-- Model of `nullIT`: allocate a fresh one-byte empty string. -/
def nullIT (a : Alloc) : StrV × Alloc :=
  allocStr a ""

/-- Model of `calloc`+`memcpy` of a fresh byte buffer. -/
def allocBytes (a : Alloc) (bs : List Nat) : BytesV × Alloc :=
  (⟨bs, a.ctr⟩, { a with ctr := a.ctr + 1 })

/-- Model of an entity-record `calloc` (`newProtocolNode`, `newUnitNode`, ...). -/
def allocRec (a : Alloc) : Alloc :=
  { a with allocs := a.allocs + 1 }

/-- Does the character list `n` occur as a contiguous run inside the list? -/
def subSearch (n : List Char) : List Char → Bool
  | [] => n.isEmpty
  | c :: t => if n.isPrefixOf (c :: t) then true else subSearch n t

/-- Model of the C `strstr(h, n) != NULL` test used throughout the file. -/
def strHasSub (h n : String) : Bool :=
  subSearch n.toList h.toList

/-- The byte view of a C string (ASCII model: one byte per character). -/
def strBytes (s : String) : List Nat :=
  s.toList.map Char.toNat

/-- Accumulate decimal digits, stopping at the first non-digit (as `atoi`). -/
def digitsVal : List Char → Nat → Nat
  | c :: t, acc => if c.isDigit then digitsVal t (acc * 10 + (c.toNat - 48)) else acc
  | [], acc => acc

/-- Is the character one of the blanks `atoi`/`xmlIsBlankNode` skip? -/
def isWS (c : Char) : Bool :=
  c = ' ' || c = '\t' || c = '\n' || c = '\r'

/-- Model of the C library `atoi`. -/
def atoi (s : String) : Int :=
  match s.toList.dropWhile isWS with
  | '-' :: t => - (digitsVal t 0 : Int)
  | '+' :: t => (digitsVal t 0 : Int)
  | l => (digitsVal l 0 : Int)

/-- Parse a run of decimal digits making up the whole list. -/
def parseDecAll : List Char → Option Nat
  | [] => none
  | l => if l.all Char.isDigit then some (digitsVal l 0) else none

/-- Split a character list at every occurrence of the separator. -/
def splitOnChar (sep : Char) : List Char → List (List Char)
  | [] => [[]]
  | c :: t =>
    let r := splitOnChar sep t
    if c = sep then [] :: r
    else match r with
         | [] => [[c]]
         | h :: rt => (c :: h) :: rt

/-- Modelled from the spec: the external `inet_addr` dotted-quad parser
(§6 document-provider/codec boundary; the function lives in libc, outside
this repository).  It accepts `a.b.c.d` with all components in `0..255` and
returns the four address bytes in network (text) order; anything else is
`INADDR_NONE`, modelled as `none`. -/
def inetAddrQuad (s : String) : Option (Nat × Nat × Nat × Nat) :=
  match (splitOnChar '.' s.toList).mapM parseDecAll with
  | some [a, b, c, d] =>
    if a ≤ 255 && b ≤ 255 && c ≤ 255 && d ≤ 255 then some (a, b, c, d) else none
  | _ => none

/-- `ntohl(inet_addr(text))`: the network-order address bytes read as a
big-endian 32-bit number (host independent composition). -/
def ntohl4 (q : Nat × Nat × Nat × Nat) : Nat :=
  ((q.1 * 256 + q.2.1) * 256 + q.2.2.1) * 256 + q.2.2.2

/-- One hex digit. -/
def hexDigit (c : Char) : Option Nat :=
  if c.isDigit then some (c.toNat - 48)
  else if 'a' ≤ c && c ≤ 'f' then some (c.toNat - 87)
  else if 'A' ≤ c && c ≤ 'F' then some (c.toNat - 55)
  else none

/-- Parse a hex token, with or without a `0x` prefix. -/
def hexVal (l : List Char) : Option Nat :=
  let l' := match l with
            | '0' :: 'x' :: t => t
            | '0' :: 'X' :: t => t
            | t => t
  match l' with
  | [] => none
  | _ => (l'.mapM hexDigit).map (fun ds => ds.foldl (fun acc d => acc * 16 + d) 0)

/-- Modelled from the spec: the external `hex2chr` codec (`decodeHex(text) ->
integer`, §6); the implementation lives in `common.c`, outside `src/`.
Malformed input yields the zero value, per the codec contract. -/
def hex2chr (s : Option String) : Int :=
  match s with
  | none => 0
  | some str => (((splitOnChar ' ' str.toList).filterMap hexVal).headD 0 : Int)

/-- Modelled from the spec: the external `string2chr` codec
(`decodeEscapedBytes(text) -> bytes, length`, §6); the implementation lives
in `common.c`, outside `src/`.  Space-separated hex byte tokens become the
byte list; malformed tokens contribute nothing. -/
def string2chr (s : String) : List Nat :=
  (splitOnChar ' ' s.toList).filterMap hexVal

/-- libxml2 node types that the C code distinguishes. -/
inductive NType where
  | element
  | text
  | other
deriving DecidableEq

/-- A libxml2 document node: type, name, text content, attributes (name and
the text contents of the attribute's child, `none` when absent), first
child and next sibling.  Comments are assumed already stripped (the C code
runs `removeComments` before the section parsers). -/
inductive XN : Type where
  | mk : NType → String → String → List (String × Option String) → Option XN → Option XN → XN

/-- Node type. -/
def XN.ntype : XN → NType
  | .mk t _ _ _ _ _ => t

/-- Node name. -/
def XN.name : XN → String
  | .mk _ n _ _ _ _ => n

/-- Node text content. -/
def XN.content : XN → String
  | .mk _ _ c _ _ _ => c

/-- Node attribute list. -/
def XN.props : XN → List (String × Option String)
  | .mk _ _ _ p _ _ => p

/-- First child. -/
def XN.children : XN → Option XN
  | .mk _ _ _ _ ch _ => ch

/-- Next sibling. -/
def XN.next : XN → Option XN
  | .mk _ _ _ _ _ nx => nx

/-- Model of libxml2's `xmlIsBlankNode`: a text node whose content is all
whitespace (or empty). -/
def xmlIsBlankNode (n : XN) : Bool :=
  (n.ntype = NType.text : Bool) && n.content.toList.all isWS

/-- Model of `getTextNode`: the content of the first child when it is a text
node, otherwise `NULL`. -/
def getTextNode (cur : XN) : Option String :=
  match cur.children with
  | some c => if c.ntype = NType.text then some c.content else none
  | none => none

/-- Model of `getPropertyNode`: scan the attribute list, and on the first
attribute whose name contains the searched name as a substring (the C code
uses `strstr`), return that attribute's text (which may be absent). -/
def getProp : List (String × Option String) → String → Option String
  | [], _ => none
  | (nm, v) :: t, key => if strHasSub nm key then v else getProp t key

/-- Model of `getNextNode` (`xmlconfig.c:1297`): forward to the direct
sibling if it is not a text node or itself has a further sibling; else fall
back to the recorded ancestor's sibling; else end of section. -/
def getNextNode (cur : XN) (prevPtr : Option XN) : Option XN :=
  match cur.next with
  | some nxt =>
    if nxt.ntype ≠ NType.text ∨ nxt.next.isSome then some nxt
    else
      match prevPtr with
      | some p => p.next
      | none => none
  | none =>
    match prevPtr with
    | some p => p.next
    | none => none

/-- The cursor rule as the specification sentence words it (for comparison
with the code's `getNextNode`): forward to the direct sibling if it "is not
a pure-whitespace text node" or itself has a further sibling; else the
recorded ancestor's sibling; else none. -/
def getNextNodeSpec (cur : XN) (prevPtr : Option XN) : Option XN :=
  match cur.next with
  | some nxt =>
    if xmlIsBlankNode nxt = false ∨ nxt.next.isSome then some nxt
    else
      match prevPtr with
      | some p => p.next
      | none => none
  | none =>
    match prevPtr with
    | some p => p.next
    | none => none

/-- Macro entity (`Macro` in `xmlconfig.h`). -/
structure Macro where
  name : Option StrV
  command : Option StrV
deriving DecidableEq

/-- Internal command entity (`iCmd`). -/
structure ICmd where
  name : Option StrV
  send : Option StrV
  retry : Int
  recvTimeout : Int
deriving DecidableEq

/-- Protocol entity.  `parseProtocol` always assigns a name before the node
becomes reachable, so the name is total here. -/
structure Protocol where
  name : StrV
  id : Int
  mPtr : List Macro
  icPtr : List ICmd
deriving DecidableEq

/-- Enumeration entity. -/
structure Enumerate where
  text : Option StrV
  bytes : Option BytesV
  len : Int
deriving DecidableEq

/-- Unit entity.  The C field `abbrev` is spelled `abbr` here because
`abbrev` is a Lean keyword. -/
structure Unit where
  name : Option StrV
  abbr : Option StrV
  gCalc : Option StrV
  sCalc : Option StrV
  gICalc : Option StrV
  sICalc : Option StrV
  entity : Option StrV
  type : Option StrV
  ePtr : List Enumerate
deriving DecidableEq

/-- Command entity.  The fields `send` and `cmpPtr` of the C struct are
never assigned inside `xmlconfig.c` and are omitted.  `nodeType` is the
ownership tag: 1 = originally authored (owns all strings), 2 = device-scoped
record sharing `name`/`description`, 0 = record whose string fields are all
borrowed (the free routine releases none of them). -/
structure Command where
  name : Option StrV
  pcmd : Option StrV
  addr : Option StrV
  unit : Option StrV
  precmd : Option StrV
  description : Option StrV
  errStr : Option BytesV
  len : Int
  bit : Int
  nodeType : Nat
deriving DecidableEq

/-- Device entity.  `parseDevice` always assigns `name`, `id` (possibly the
empty string via `nullIT`) and a resolved protocol before the node becomes
reachable. -/
structure Device where
  name : StrV
  id : StrV
  protoPtr : Protocol
  cmdPtr : List Command
deriving DecidableEq

/-- ACL rule entity (`Allow`).  `ip` holds the four address bytes in network
(text) order, as produced by `inet_addr`. -/
structure Allow where
  text : StrV
  ip : Nat × Nat × Nat × Nat
  mask : Nat
deriving DecidableEq

/-- Config entity. -/
structure Config where
  tty : Option StrV
  logfile : Option StrV
  devID : Option StrV
  port : Int
  syslog : Nat
  debug : Nat
  aPtr : List Allow
  devPtr : Option Device
deriving DecidableEq

/-- The zero-initialised Config record `parseConfig` `calloc`s. -/
def cfg0 : Config :=
  { tty := none, logfile := none, devID := none, port := 0, syslog := 0,
    debug := 0, aPtr := [], devPtr := none }

/-- The zero-initialised Command record of `newCommandNode` (which then sets
`bit = -1`). -/
def newCommandRec : Command :=
  { name := none, pcmd := none, addr := none, unit := none, precmd := none,
    description := none, errStr := none, len := 0, bit := -1, nodeType := 0 }

/-- Model of `getProtocolNode`: first protocol with the given name. -/
def getProtocolNode : List Protocol → String → Option Protocol
  | [], _ => none
  | p :: t, nm => if p.name.s = nm then some p else getProtocolNode t nm

/-- Model of `getUnitNode` (`xmlconfig.c:138`): the scan stops at the first
unit whose abbreviation is `NULL` or equal to the searched name. -/
def getUnitNode : List Unit → String → Option Unit
  | [], _ => none
  | u :: t, nm =>
    match u.abbr with
    | some ab => if ab.s = nm then some u else getUnitNode t nm
    | none => some u

/-- Model of `getMacroNode` (`xmlconfig.c:191`). -/
def getMacroNode : List Macro → String → Option Macro
  | [], _ => none
  | m :: t, nm =>
    match m.name with
    | some mn => if mn.s = nm then some m else getMacroNode t nm
    | none => some m

/-- Model of `getIcmdNode` (`xmlconfig.c:370`). -/
def getIcmdNode : List ICmd → String → Option ICmd
  | [], _ => none
  | c :: t, nm =>
    match c.name with
    | some cn => if cn.s = nm then some c else getIcmdNode t nm
    | none => some c

/-- Model of `getCommandNode` (`xmlconfig.c:251`): additionally, a `NULL`
searched name stops the scan at the head immediately. -/
def getCommandNode : List Command → Option String → Option Command
  | [], _ => none
  | c :: t, nm =>
    match nm with
    | none => some c
    | some n =>
      match c.name with
      | some cn => if cn.s = n then some c else getCommandNode t (some n)
      | none => some c

/-- Model of `getDeviceNode` (`xmlconfig.c:324`): first device with the
given id. -/
def getDeviceNode : List Device → String → Option Device
  | [], _ => none
  | d :: t, id => if d.id.s = id then some d else getDeviceNode t id

/-- Index-returning variant of the device lookup, used where the C code
keeps the `dPtr` pointer across further mutation of the chain. -/
def devFindIdx : List Device → String → Option Nat
  | [], _ => none
  | d :: t, id => if d.id.s = id then some 0 else (devFindIdx t id).map (· + 1)

/-- In-place update of the `i`-th list element (pointer mutation model). -/
def listUpd {α : Type} : List α → Nat → (α → α) → List α
  | [], _, _ => []
  | x :: t, 0, f => f x :: t
  | x :: t, n + 1, f => x :: listUpd t n f

/-- Model of `memcmp(a, b, len) == 0` on byte buffers. -/
def memEq (xs ys : List Nat) (n : Nat) : Bool :=
  xs.take n = ys.take n

/-- Model of `getEnumNode` (`xmlconfig.c:461`): positive length compares
byte patterns, zero length compares text, negative length selects the entry
with a `NULL` byte pattern (the default). -/
def getEnumNode : List Enumerate → List Nat → Int → Option Enumerate
  | [], _, _ => none
  | e :: t, search, len =>
    if decide (len > 0) && (match e.bytes with
                            | some bv => memEq bv.bs search len.toNat
                            | none => false) then some e
    else if decide (len = 0) && (match e.text with
                                 | some tv => decide (strBytes tv.s = search)
                                 | none => false) then some e
    else if decide (len < 0) && decide (e.bytes = none) then some e
    else getEnumNode t search len

/-- Model of `getAllowNode` (`xmlconfig.c:392`): first rule whose masked
network-order address equals the candidate's masked address. -/
def getAllowNode : List Allow → (Nat × Nat × Nat × Nat) → Option Allow
  | [], _ => none
  | r :: t, testIP =>
    if ntohl4 r.ip &&& r.mask = ntohl4 testIP &&& r.mask then some r
    else getAllowNode t testIP

/-- The mask-assembly loop of `parseConfig` (`xmlconfig.c:648`): starting
from `0x80000000`, shift in a high bit `size - 1` times. -/
def maskIter (mask : Nat) : Nat → Nat
  | 0 => mask
  | n + 1 => maskIter ((mask >>> 1) ||| 0x80000000) n

/-- The netmask derived from a CIDR suffix by `parseConfig`: zero for size
0, otherwise the `size` high bits of a 32-bit word. -/
def buildMask (size : Int) : Nat :=
  if size = 0 then 0 else maskIter 0x80000000 (size - 1).toNat

/-- Copy the given text, or `nullIT` when it is absent — the ubiquitous
`if (chrPtr) { calloc+strcpy } else { nullIT(...) }` pattern. -/
def setStrOpt (a : Alloc) (v : Option String) : StrV × Alloc :=
  match v with
  | some s => allocStr a s
  | none => nullIT a

/-- The zero-initialised Unit record of `newUnitNode`. -/
def newUnitRec : Unit :=
  { name := none, abbr := none, gCalc := none, sCalc := none, gICalc := none,
    sICalc := none, entity := none, type := none, ePtr := [] }

/-- The loop of `parseUnit` (`xmlconfig.c:694`).  `done` holds the finished
units of the chain, `cu` the unit currently being filled (the C `uPtr`,
always the last chain element); `cu.isSome` is the C `unitFound` flag.
Result `some none` is the C `return NULL`; `none` is fuel exhaustion, which
corresponds to the C loops that never advance the cursor. -/
def parseUnitLoop : Nat → Option XN → Option XN → List Unit → Option Unit →
    Alloc → Option (Option (List Unit)) × Alloc
  | 0, _, _, _, _, a => (none, a)
  | _ + 1, none, _, done, cu, a => (some (some (done ++ cu.toList)), a)
  | fuel + 1, some cur, prev, done, cu, a =>
    if cur.ntype = NType.text then
      parseUnitLoop fuel cur.next prev done cu a
    else if strHasSub cur.name "unit" then
      match getProp cur.props "name" with
      | some nm =>
        let a1 := allocRec a
        let (nv, a2) := allocStr a1 nm
        parseUnitLoop fuel cur.children (some cur) (done ++ cu.toList)
          (some { newUnitRec with name := some nv }) a2
      | none =>
        -- the C code falls through without advancing `cur` and spins forever
        parseUnitLoop fuel (some cur) prev done cu a
    else
      match cu with
      | none => (some none, a)
      | some u =>
        if strHasSub cur.name "enum" then
          match getProp cur.props "text" with
          | none => (some none, a)
          | some txt =>
            let a1 := allocRec a
            let (tv, a2) := allocStr a1 txt
            let (e, a3) :=
              match getProp cur.props "bytes" with
              | some bs =>
                let l := string2chr bs
                let (bv, a3) := allocBytes a2 l
                (({ text := some tv, bytes := some bv, len := (l.length : Int) } :
                  Enumerate), a3)
              | none =>
                (({ text := some tv, bytes := none, len := 0 } : Enumerate), a2)
            parseUnitLoop fuel (getNextNode cur prev) prev done
              (some { u with ePtr := u.ePtr ++ [e] }) a3
        else if strHasSub cur.name "abbrev" then
          let p := setStrOpt a (getTextNode cur)
          parseUnitLoop fuel (getNextNode cur prev) prev done
            (some { u with abbr := some p.1 }) p.2
        else if cur.name = "calc" then
          let p := setStrOpt a (getProp cur.props "get")
          let q := setStrOpt p.2 (getProp cur.props "set")
          parseUnitLoop fuel (getNextNode cur prev) prev done
            (some { u with gCalc := some p.1, sCalc := some q.1 }) q.2
        else if cur.name = "icalc" then
          let p := setStrOpt a (getProp cur.props "get")
          let q := setStrOpt p.2 (getProp cur.props "set")
          parseUnitLoop fuel (getNextNode cur prev) prev done
            (some { u with gICalc := some p.1, sICalc := some q.1 }) q.2
        else if strHasSub cur.name "type" then
          let p := setStrOpt a (getTextNode cur)
          parseUnitLoop fuel (getNextNode cur prev) prev done
            (some { u with type := some p.1 }) p.2
        else if strHasSub cur.name "entity" then
          let p := setStrOpt a (getTextNode cur)
          parseUnitLoop fuel (getNextNode cur prev) prev done
            (some { u with entity := some p.1 }) p.2
        else (some none, a)

/-- The loop of `parseMacro` (`xmlconfig.c:837`), same conventions as
`parseUnitLoop`. -/
def parseMacroLoop : Nat → Option XN → Option XN → List Macro → Option Macro →
    Alloc → Option (Option (List Macro)) × Alloc
  | 0, _, _, _, _, a => (none, a)
  | _ + 1, none, _, done, cu, a => (some (some (done ++ cu.toList)), a)
  | fuel + 1, some cur, prev, done, cu, a =>
    if cur.ntype = NType.text then
      parseMacroLoop fuel cur.next prev done cu a
    else if strHasSub cur.name "macro" then
      match getProp cur.props "name" with
      | some nm =>
        let a1 := allocRec a
        let (nv, a2) := allocStr a1 nm
        parseMacroLoop fuel cur.children (some cur) (done ++ cu.toList)
          (some { name := some nv, command := none }) a2
      | none => parseMacroLoop fuel (some cur) prev done cu a
    else
      match cu with
      | none => (some none, a)
      | some m =>
        if strHasSub cur.name "command" then
          let p := setStrOpt a (getTextNode cur)
          parseMacroLoop fuel (getNextNode cur prev) prev done
            (some { m with command := some p.1 }) p.2
        else (some none, a)

/-- The loop of `parseICmd` (`xmlconfig.c:1073`), same conventions. -/
def parseICmdLoop : Nat → Option XN → Option XN → List ICmd → Option ICmd →
    Alloc → Option (Option (List ICmd)) × Alloc
  | 0, _, _, _, _, a => (none, a)
  | _ + 1, none, _, done, cu, a => (some (some (done ++ cu.toList)), a)
  | fuel + 1, some cur, prev, done, cu, a =>
    if xmlIsBlankNode cur then
      parseICmdLoop fuel cur.next prev done cu a
    else if strHasSub cur.name "command" then
      match getProp cur.props "name" with
      | some nm =>
        let a1 := allocRec a
        let (nv, a2) := allocStr a1 nm
        parseICmdLoop fuel cur.children (some cur) (done ++ cu.toList)
          (some { name := some nv, send := none, retry := 0, recvTimeout := 0 }) a2
      | none => parseICmdLoop fuel (some cur) prev done cu a
    else
      match cu with
      | none => (some none, a)
      | some c =>
        if strHasSub cur.name "send" then
          let p := setStrOpt a (getTextNode cur)
          parseICmdLoop fuel (getNextNode cur prev) prev done
            (some { c with send := some p.1 }) p.2
        else if strHasSub cur.name "retry" then
          let c' := match getTextNode cur with
                    | some s => { c with retry := atoi s }
                    | none => c
          parseICmdLoop fuel (getNextNode cur prev) prev done (some c') a
        else if strHasSub cur.name "recvTimeout" then
          let c' := match getTextNode cur with
                    | some s => { c with recvTimeout := atoi s }
                    | none => c
          parseICmdLoop fuel (getNextNode cur prev) prev done (some c') a
        else (some none, a)

/-- The loop of `parseProtocol` (`xmlconfig.c:1205`).  Note that, unlike the
unit/macro builders, unrecognised children are skipped, not fatal, and that
a failed (`NULL`) result of the nested macro/internal-command builders is
silently ignored. -/
def parseProtocolLoop : Nat → Option XN → Option XN → List Protocol →
    Option Protocol → Alloc → Option (Option (List Protocol)) × Alloc
  | 0, _, _, _, _, a => (none, a)
  | _ + 1, none, _, done, cu, a => (some (some (done ++ cu.toList)), a)
  | fuel + 1, some cur, prev, done, cu, a =>
    if cur.ntype = NType.text then
      parseProtocolLoop fuel cur.next prev done cu a
    else if strHasSub cur.name "protocol" then
      match getProp cur.props "name" with
      | none => (some none, a)
      | some nm =>
        let a1 := allocRec a
        let (nv, a2) := allocStr a1 nm
        parseProtocolLoop fuel cur.children (some cur) (done ++ cu.toList)
          (some { name := nv, id := 0, mPtr := [], icPtr := [] }) a2
    else
      match cu with
      | none =>
        -- no protocol started yet: every other element falls to the final
        -- catch-all branch (C reads an uninitialised prevPtr here; we model
        -- the missing fallback as `none`)
        parseProtocolLoop fuel (getNextNode cur prev) prev done cu a
      | some p =>
        if strHasSub cur.name "pid" then
          parseProtocolLoop fuel (getNextNode cur prev) prev done
            (some { p with id := hex2chr (getTextNode cur) }) a
        else if strHasSub cur.name "macros" then
          match parseMacroLoop fuel cur.children none [] none a with
          | (none, a1) => (none, a1)
          | (some r, a1) =>
            let l := r.getD []
            let p' := if l.isEmpty then p else { p with mPtr := l }
            parseProtocolLoop fuel (getNextNode cur prev) prev done (some p') a1
        else if strHasSub cur.name "commands" then
          match parseICmdLoop fuel cur.children none [] none a with
          | (none, a1) => (none, a1)
          | (some r, a1) =>
            let l := r.getD []
            let p' := if l.isEmpty then p else { p with icPtr := l }
            parseProtocolLoop fuel (getNextNode cur prev) prev done (some p') a1
        else
          parseProtocolLoop fuel (getNextNode cur prev) prev done (some p) a

/-- The loop of `parseDevice` (`xmlconfig.c:1142`).  Only the `protocol`
attribute is required; a missing `name` or `ID` is replaced by the empty
string via `nullIT`.  An unresolvable protocol name is fatal. -/
def parseDeviceLoop : Nat → Option XN → Option XN → List Device →
    List Protocol → Alloc → Option (Option (List Device)) × Alloc
  | 0, _, _, _, _, a => (none, a)
  | _ + 1, none, _, done, _, a => (some (some done), a)
  | fuel + 1, some cur, prev, done, protos, a =>
    if cur.ntype = NType.text then
      parseDeviceLoop fuel cur.next prev done protos a
    else if strHasSub cur.name "device" then
      match getProp cur.props "protocol" with
      | none => (some none, a)
      | some proto =>
        let a1 := allocRec a
        let (nv, a2) := setStrOpt a1 (getProp cur.props "name")
        let (iv, a3) := setStrOpt a2 (getProp cur.props "ID")
        match getProtocolNode protos proto with
        | none => (some none, a3)
        | some pr =>
          parseDeviceLoop fuel cur.next (some cur)
            (done ++ [{ name := nv, id := iv, protoPtr := pr, cmdPtr := [] }]) protos a3
    else
      parseDeviceLoop fuel (getNextNode cur prev) prev done protos a

/-- The running state a `parseCommand` invocation hands back: `err` is true
when the C function executed `return NULL`, `done` are the chain commands
already finished, `cu` the record `cPtr` points at, `inChain` whether that
record is part of the chain anchored at `cStartPtr`, and `devs` the device
chain (which nested `device` elements mutate). -/
structure PCSt where
  err : Bool
  done : List Command
  cu : Option Command
  inChain : Bool
  devs : List Device
deriving DecidableEq

/-- The chain (`cStartPtr`) described by a `PCSt`. -/
def PCSt.chain (p : PCSt) : List Command :=
  p.done ++ (if p.inChain then p.cu.toList else [])

/-- Lines 971–987 of `xmlconfig.c`: fix up the freshly parsed device-scoped
record `ncF` from the enclosing generic command `c`.  `name` and
`description` are shared by reference; `unit` is value-copied only when the
nested record set none; `pcmd` comes from the nested `protocmd` attribute
or else is a value copy of the enclosing `pcmd`; the ownership tag becomes
2.  The C code calls `strlen` on the enclosing `pcmd` when no attribute is
given, which is undefined when that field is `NULL` — hence the `Option`. -/
def mergeDeviceCmd (c ncF : Command) (protocmd : Option String) (a : Alloc) :
    Option (Command × Alloc) :=
  let nc1 := { ncF with description := c.description, name := c.name }
  let (nc2, a2) :=
    match nc1.unit, c.unit with
    | none, some u =>
      let p := allocStr a u.s
      ({ nc1 with unit := some p.1 }, p.2)
    | _, _ => (nc1, a)
  match protocmd with
  | some p =>
    let q := allocStr a2 p
    some ({ nc2 with pcmd := some q.1, nodeType := 2 }, q.2)
  | none =>
    match c.pcmd with
    | some p =>
      let q := allocStr a2 p.s
      some ({ nc2 with pcmd := some q.1, nodeType := 2 }, q.2)
    | none => none

/-- The loop of `parseCommand` (`xmlconfig.c:891`).  The one place where the
model is deliberately ruled out (`none`) rather than followed: a fresh
`<command>` starting while `cPtr` is a detached record (the recursive
device call), because the C code then abandons the caller's record through
pointer aliasing that a value model cannot reproduce. -/
def parseCommandLoop : Nat → Option XN → Option XN → List Command →
    Option Command → Bool → List Device → Alloc → Option PCSt × Alloc
  | 0, _, _, _, _, _, _, a => (none, a)
  | _ + 1, none, _, done, cu, inChain, devs, a =>
    (some ⟨false, done, cu, inChain, devs⟩, a)
  | fuel + 1, some cur, prev, done, cu, inChain, devs, a =>
    if xmlIsBlankNode cur then
      parseCommandLoop fuel cur.next prev done cu inChain devs a
    else if cur.name = "command" then
      match getProp cur.props "name" with
      | none =>
        -- the C code falls through without advancing `cur` and spins forever
        parseCommandLoop fuel (some cur) prev done cu inChain devs a
      | some cmdName =>
        match cu, inChain with
        | some _, false => (none, a)
        | _, _ =>
          let done' := if inChain then done ++ cu.toList else done
          let a1 := allocRec a
          let (nm, a2) := allocStr a1 cmdName
          let (pc, a3) :=
            match getProp cur.props "protocmd" with
            | some p => allocStr a2 p
            | none => nullIT a2
          let c : Command :=
            { newCommandRec with nodeType := 1, name := some nm, pcmd := some pc }
          parseCommandLoop fuel cur.children (some cur) done' (some c) true devs a3
    else if cu.isSome && strHasSub cur.name "device" then
      match getProp cur.props "ID" with
      | none =>
        -- no advance in the C code: spins forever
        parseCommandLoop fuel (some cur) prev done cu inChain devs a
      | some id =>
        match devFindIdx devs id with
        | none => (some ⟨true, done, cu, inChain, devs⟩, a)
        | some i =>
          match cu with
          | none => (none, a)
          | some c =>
            match c.description with
            | none => (none, a)   -- strncpy from a NULL description: undefined
            | some _ =>
              let a1 := allocRec a
              match parseCommandLoop fuel cur.children none [] (some newCommandRec)
                      false devs a1 with
              | (none, a2) => (none, a2)
              | (some sub, a2) =>
                match sub.cu with
                | none => (none, a2)
                | some ncF =>
                  match mergeDeviceCmd c ncF (getProp cur.props "protocmd") a2 with
                  | none => (none, a2)
                  | some (nc, a3) =>
                    let devs2 := listUpd sub.devs i
                      (fun d => { d with cmdPtr := d.cmdPtr ++ [nc] })
                    parseCommandLoop fuel (getNextNode cur prev) prev done
                      (some c) inChain devs2 a3
    else
      match cu with
      | none => (some ⟨true, done, cu, inChain, devs⟩, a)
      | some c =>
        if strHasSub cur.name "addr" then
          let p := setStrOpt a (getTextNode cur)
          parseCommandLoop fuel (getNextNode cur prev) prev done
            (some { c with addr := some p.1 }) inChain devs p.2
        else if strHasSub cur.name "error" then
          match getTextNode cur with
          | some s =>
            let l := string2chr s
            if l.length ≠ 0 then
              let p := allocBytes a l
              parseCommandLoop fuel (getNextNode cur prev) prev done
                (some { c with errStr := some p.1 }) inChain devs p.2
            else
              parseCommandLoop fuel (getNextNode cur prev) prev done
                (some c) inChain devs a
          | none =>
            let p := allocBytes a []
            parseCommandLoop fuel (getNextNode cur prev) prev done
              (some { c with errStr := some p.1 }) inChain devs p.2
        else if strHasSub cur.name "unit" then
          let p := setStrOpt a (getTextNode cur)
          parseCommandLoop fuel (getNextNode cur prev) prev done
            (some { c with unit := some p.1 }) inChain devs p.2
        else if cur.name = "precommand" then
          let p := setStrOpt a (getTextNode cur)
          parseCommandLoop fuel (getNextNode cur prev) prev done
            (some { c with precmd := some p.1 }) inChain devs p.2
        else if strHasSub cur.name "description" then
          let p := setStrOpt a (getTextNode cur)
          parseCommandLoop fuel (getNextNode cur prev) prev done
            (some { c with description := some p.1 }) inChain devs p.2
        else if strHasSub cur.name "len" then
          let c' := match getTextNode cur with
                    | some s => { c with len := atoi s }
                    | none => c
          parseCommandLoop fuel (getNextNode cur prev) prev done (some c') inChain devs a
        else if strHasSub cur.name "bit" then
          let c' := match getTextNode cur with
                    | some s => { c with bit := atoi s }
                    | none => c
          parseCommandLoop fuel (getNextNode cur prev) prev done (some c') inChain devs a
        else (some ⟨true, done, some c, inChain, devs⟩, a)

/-- The loop of `parseConfig` (`xmlconfig.c:558`).  `parseConfig` can never
fail; it can only get stuck on undefined behaviour (`none`).  Note two
faithful oddities of the C code: the `else` branches of the `tty` and
`file` handlers `nullIT` the **devID** field, and a malformed `allow`
address is skipped silently. -/
def parseConfigLoop : Nat → Option XN → Option XN → Bool → Bool → Bool →
    Config → Alloc → Option Config × Alloc
  | 0, _, _, _, _, _, _, a => (none, a)
  | _ + 1, none, _, _, _, _, cfg, a => (some cfg, a)
  | fuel + 1, some cur, prev, serialFound, netFound, logFound, cfg, a =>
    if strHasSub cur.name "serial" then
      parseConfigLoop fuel cur.children (some cur) true netFound logFound cfg a
    else if strHasSub cur.name "net" then
      parseConfigLoop fuel cur.children (some cur) serialFound true logFound cfg a
    else if strHasSub cur.name "logging" then
      parseConfigLoop fuel cur.children (some cur) serialFound netFound true cfg a
    else if strHasSub cur.name "device" then
      let p := setStrOpt a (getProp cur.props "ID")
      parseConfigLoop fuel cur.next prev serialFound netFound logFound
        { cfg with devID := some p.1 } p.2
    else if serialFound && strHasSub cur.name "tty" then
      match getTextNode cur with
      | some s =>
        let p := allocStr a s
        parseConfigLoop fuel (getNextNode cur prev) prev serialFound netFound logFound
          { cfg with tty := some p.1 } p.2
      | none =>
        let p := nullIT a
        parseConfigLoop fuel (getNextNode cur prev) prev serialFound netFound logFound
          { cfg with devID := some p.1 } p.2
    else if netFound && strHasSub cur.name "port" then
      let cfg' := match getTextNode cur with
                  | some s => { cfg with port := atoi s }
                  | none => cfg
      parseConfigLoop fuel (getNextNode cur prev) prev serialFound netFound logFound cfg' a
    else if netFound && strHasSub cur.name "allow" then
      match getProp cur.props "ip" with
      | none => (none, a)   -- strchr on a NULL pointer: undefined
      | some chr =>
        let cl := chr.toList
        let ipChars := if cl.contains '/' then cl.takeWhile (· ≠ '/') else cl.take 15
        let size : Int :=
          if cl.contains '/' then atoi (String.mk ((cl.dropWhile (· ≠ '/')).drop 1))
          else 32
        match inetAddrQuad (String.mk ipChars) with
        | some q =>
          let a1 := allocRec a
          let (tv, a2) := allocStr a1 chr
          parseConfigLoop fuel (getNextNode cur prev) prev serialFound netFound logFound
            { cfg with aPtr := cfg.aPtr ++ [{ text := tv, ip := q, mask := buildMask size }] } a2
        | none =>
          parseConfigLoop fuel (getNextNode cur prev) prev serialFound netFound logFound cfg a
    else if logFound && strHasSub cur.name "file" then
      match getTextNode cur with
      | some s =>
        let p := allocStr a s
        parseConfigLoop fuel (getNextNode cur prev) prev serialFound netFound logFound
          { cfg with logfile := some p.1 } p.2
      | none =>
        let p := nullIT a
        parseConfigLoop fuel (getNextNode cur prev) prev serialFound netFound logFound
          { cfg with devID := some p.1 } p.2
    else if logFound && strHasSub cur.name "syslog" then
      match getTextNode cur with
      | none => (none, a)   -- *chrPtr on a NULL pointer: undefined
      | some s =>
        let v := match s.toList with
                 | c :: _ => if c = 'y' ∨ c = '1' then 1 else 0
                 | [] => 0
        parseConfigLoop fuel (getNextNode cur prev) prev serialFound netFound logFound
          { cfg with syslog := v } a
    else if logFound && strHasSub cur.name "debug" then
      match getTextNode cur with
      | none => (none, a)
      | some s =>
        let v := match s.toList with
                 | c :: _ => if c = 'y' ∨ c = '1' then 1 else 0
                 | [] => 0
        parseConfigLoop fuel (getNextNode cur prev) prev serialFound netFound logFound
          { cfg with debug := v } a
    else
      parseConfigLoop fuel (getNextNode cur prev) prev serialFound netFound logFound cfg a

/-- `parseUnit` entry point. -/
def parseUnit (fuel : Nat) (cur : Option XN) (a : Alloc) :
    Option (Option (List Unit)) × Alloc :=
  parseUnitLoop fuel cur none [] none a

/-- `parseMacro` entry point. -/
def parseMacro (fuel : Nat) (cur : Option XN) (a : Alloc) :
    Option (Option (List Macro)) × Alloc :=
  parseMacroLoop fuel cur none [] none a

/-- `parseICmd` entry point. -/
def parseICmd (fuel : Nat) (cur : Option XN) (a : Alloc) :
    Option (Option (List ICmd)) × Alloc :=
  parseICmdLoop fuel cur none [] none a

/-- `parseProtocol` entry point. -/
def parseProtocol (fuel : Nat) (cur : Option XN) (a : Alloc) :
    Option (Option (List Protocol)) × Alloc :=
  parseProtocolLoop fuel cur none [] none a

/-- `parseDevice` entry point. -/
def parseDevice (fuel : Nat) (cur : Option XN) (protos : List Protocol) (a : Alloc) :
    Option (Option (List Device)) × Alloc :=
  parseDeviceLoop fuel cur none [] protos a

/-- `parseConfig` entry point (allocates the Config record up front). -/
def parseConfig (fuel : Nat) (cur : Option XN) (a : Alloc) :
    Option Config × Alloc :=
  parseConfigLoop fuel cur none false false false cfg0 (allocRec a)

/-- `parseCommand` entry point as `parseXMLFile` calls it (`cPtr = NULL`). -/
def parseCommand (fuel : Nat) (cur : Option XN) (devs : List Device) (a : Alloc) :
    Option PCSt × Alloc :=
  parseCommandLoop fuel cur none [] none false devs a

/-- The body of the default-command propagation inner loop
(`xmlconfig.c:1447`): if the device has no command of the given name, a
fresh record borrowing every field of the generic command (a plain
`calloc`, no string copies, ownership tag left 0) is appended to the
device's list; otherwise the device is untouched. -/
def propagateCmdDev (c : Command) (d : Device) (a : Alloc) : Device × Alloc :=
  if (getCommandNode d.cmdPtr (c.name.map StrV.s)).isSome then (d, a)
  else
    let nc : Command :=
      { name := c.name, pcmd := c.pcmd, addr := c.addr, unit := c.unit,
        precmd := c.precmd, description := c.description, errStr := c.errStr,
        len := c.len, bit := c.bit, nodeType := 0 }
    ({ d with cmdPtr := d.cmdPtr ++ [nc] }, allocRec a)

/-- Propagate one generic command over the whole device chain. -/
def propOne (c : Command) : List Device → Alloc → List Device × Alloc
  | [], a => ([], a)
  | d :: t, a =>
    let (d', a1) := propagateCmdDev c d a
    let (t', a2) := propOne c t a1
    (d' :: t', a2)

/-- The full propagation pass (`xmlconfig.c:1443`–`1467`). -/
def propagate (cs : List Command) (devs : List Device) (a : Alloc) :
    List Device × Alloc :=
  cs.foldl (fun p c => propOne c p.1 p.2) (devs, a)

/-- The candidate generation being assembled by `parseXMLFile`'s main loop
(the local `TprotoPtr`, `TuPtr`, `TdevPtr`, `TcmdPtr`, `TcfgPtr`). -/
structure Cand where
  tp : List Protocol
  tu : List Unit
  td : List Device
  tc : List Command
  tcfg : Option Config
deriving DecidableEq

/-- The empty candidate at entry to `parseXMLFile`. -/
def cand0 : Cand :=
  { tp := [], tu := [], td := [], tc := [], tcfg := none }

/-- The section-dispatch loop of `parseXMLFile` (`xmlconfig.c:1370`–`1439`).
Result `some none` is `return 0`; `some (some cand)` is the loop finishing
with the assembled candidate; `none` is fuel exhaustion or reading the
uninitialised `prevPtr`. -/
def mainLoop : Nat → Option XN → Option XN → Bool → Bool → Cand → Alloc →
    Option (Option Cand) × Alloc
  | 0, _, _, _, _, _, a => (none, a)
  | _ + 1, none, _, _, _, cand, a => (some (some cand), a)
  | fuel + 1, some cur, prev, unixFound, protocolsFound, cand, a =>
    if xmlIsBlankNode cur then
      mainLoop fuel cur.next prev unixFound protocolsFound cand a
    else if strHasSub cur.name "unix" then
      if unixFound then (some none, a)
      else mainLoop fuel cur.children (some cur) true protocolsFound cand a
    else if strHasSub cur.name "extern" then
      match cur.children with
      | some ch =>
        if strHasSub ch.name "vito" then
          mainLoop fuel ch.children (some ch) unixFound protocolsFound cand a
        else
          match prev with
          | some p => mainLoop fuel p.next prev unixFound protocolsFound cand a
          | none => (none, a)   -- uninitialised prevPtr: undefined
      | none =>
        match prev with
        | some p => mainLoop fuel p.next prev unixFound protocolsFound cand a
        | none => (none, a)
    else if strHasSub cur.name "protocols" then
      if protocolsFound then (some none, a)
      else
        match parseProtocol fuel cur.children a with
        | (none, a1) => (none, a1)
        | (some none, a1) => (some none, a1)
        | (some (some ps), a1) =>
          if ps.isEmpty then (some none, a1)
          else mainLoop fuel cur.next prev unixFound true { cand with tp := ps } a1
    else if strHasSub cur.name "units" then
      match parseUnit fuel cur.children a with
      | (none, a1) => (none, a1)
      | (some none, a1) => (some none, a1)
      | (some (some us), a1) =>
        if us.isEmpty then (some none, a1)
        else mainLoop fuel cur.next prev unixFound protocolsFound { cand with tu := us } a1
    else if strHasSub cur.name "commands" then
      match parseCommand fuel cur.children cand.td a with
      | (none, a1) => (none, a1)
      | (some r, a1) =>
        if r.err then (some none, a1)
        else if r.chain.isEmpty then (some none, a1)
        else
          let cand' := { cand with tc := r.chain, td := r.devs }
          match cur.next with
          | some nxt => mainLoop fuel (some nxt) prev unixFound protocolsFound cand' a1
          | none =>
            match prev with
            | some p => mainLoop fuel p.next prev unixFound protocolsFound cand' a1
            | none => (none, a1)
    else if strHasSub cur.name "devices" then
      match parseDevice fuel cur.children cand.tp a with
      | (none, a1) => (none, a1)
      | (some none, a1) => (some none, a1)
      | (some (some ds), a1) =>
        if ds.isEmpty then (some none, a1)
        else
          let cand' := { cand with td := ds }
          match cur.next with
          | some nxt => mainLoop fuel (some nxt) prev unixFound protocolsFound cand' a1
          | none =>
            match prev with
            | some p => mainLoop fuel p.next prev unixFound protocolsFound cand' a1
            | none => (none, a1)
    else if strHasSub cur.name "config" then
      match parseConfig fuel cur.children a with
      | (none, a1) => (none, a1)
      | (some cfg, a1) =>
        let cand' := { cand with tcfg := some cfg }
        match cur.next with
        | some nxt =>
          if nxt.next.isSome then
            mainLoop fuel (some nxt) prev unixFound protocolsFound cand' a1
          else
            match prev with
            | some p => mainLoop fuel p.next prev unixFound protocolsFound cand' a1
            | none => (none, a1)
        | none =>
          match prev with
          | some p => mainLoop fuel p.next prev unixFound protocolsFound cand' a1
          | none => (none, a1)
    else
      mainLoop fuel cur.next prev unixFound protocolsFound cand a

/-- An input document as the document provider hands it over: the parsed
root (or `none` when `xmlParseFile`/`xmlDocGetRootElement` failed), whether
the vcontrol namespace was found, and the result of the XInclude pass. -/
structure XDoc where
  root : Option XN
  hasNs : Bool
  xinc : Int

/-- One compiled model generation: the five lists the process-wide globals
point at. -/
structure Model where
  protos : List Protocol
  units : List Unit
  devs : List Device
  cmds : List Command
  cfg : Config
deriving DecidableEq

/-- Entity records owned by one protocol node. -/
def protoSize (p : Protocol) : Nat :=
  1 + p.mPtr.length + p.icPtr.length

/-- Entity records owned by one unit node. -/
def unitSize (u : Unit) : Nat :=
  1 + u.ePtr.length

/-- Entity records owned by one device node. -/
def devSize (d : Device) : Nat :=
  1 + d.cmdPtr.length

/-- The number of entity records making up a generation: exactly what the C
`freeAllLists` releases via the `remove*List` walks and `free(cfgPtr)`. -/
def modelSize (m : Model) : Nat :=
  (m.protos.map protoSize).sum + (m.units.map unitSize).sum +
    (m.devs.map devSize).sum + m.cmds.length + 1 + m.cfg.aPtr.length

/-- The process-wide current generation (`protoPtr`/`uPtr`/`devPtr`/
`cmdPtr`/`cfgPtr`), all null initially. -/
abbrev Globals := Option Model

/-- Model of `freeAllLists` (`xmlconfig.c:1491`): the number of entity
records it releases (the whole previously active generation, or nothing
when the globals are still null). -/
def freeAllLists (g : Globals) : Nat :=
  match g with
  | none => 0
  | some m => modelSize m

/-- Everything of `parseXMLFile` up to (not including) the swap: early
document checks, the section loop, default-command propagation and
default-device resolution.  Result `some none` is `return 0`,
`some (some m)` is the fully compiled candidate, `none` is undefined
behaviour or fuel exhaustion.  Note that no failure path frees anything. -/
def compileDoc (fuel : Nat) (doc : XDoc) (a : Alloc) :
    Option (Option Model) × Alloc :=
  match doc.root with
  | none => (some none, a)
  | some root =>
    if !doc.hasNs then (some none, a)
    else if root.name ≠ "V-Control" then (some none, a)
    else if doc.xinc < 0 then (some none, a)
    else
      match mainLoop fuel root.children none false false cand0 a with
      | (none, a1) => (none, a1)
      | (some none, a1) => (some none, a1)
      | (some (some cand), a1) =>
        let (td2, a2) := propagate cand.tc cand.td a1
        match cand.tcfg with
        | none => (none, a2)   -- TcfgPtr is NULL here: the C code dereferences it
        | some cfg =>
          match cfg.devID with
          | none => (none, a2)   -- strcmp on a NULL devID: undefined
          | some did =>
            match getDeviceNode td2 did.s with
            | none => (some none, a2)
            | some d =>
              (some (some { protos := cand.tp, units := cand.tu, devs := td2,
                            cmds := cand.tc, cfg := { cfg with devPtr := some d } }), a2)

/-- Model of `parseXMLFile` (`xmlconfig.c:1315`).  The result carries the
return code together with the new globals, the final allocation state, and
the number of entity records freed during the call (`freeAllLists` runs
only on the success path, immediately before the pointer swap). -/
def parseXMLFile (fuel : Nat) (doc : XDoc) (g : Globals) (a : Alloc) :
    Option (Nat × Globals) × Alloc × Nat :=
  match compileDoc fuel doc a with
  | (none, a1) => (none, a1, 0)
  | (some none, a1) => (some (0, g), a1, 0)
  | (some (some m), a1) => (some (1, some m), a1, freeAllLists g)

/-- A shorthand for a text node. -/
def txtN (s : String) : XN :=
  XN.mk NType.text "text" s [] none none

/-- A small but complete configuration document in the layout the real
`vcontrold.xml` uses (`unix`→`config`, `extern`→`vito`→ sections): one
protocol `P300`, one unit with abbreviation `UT`, one device `2094`, one
generic command `getTempA`.  The default-device id and the command's unit
name are parameters so that the same tree can be made to fail

(unresolvable default device) or to carry a dangling unit reference. -/
def mkDoc (devID unitName : String) : XDoc :=
  let allowN := XN.mk NType.element "allow" "" [("ip", some "10.0.0.0/24")] none none
  let portN := XN.mk NType.element "port" "" [] (some (txtN "3002")) (some allowN)
  let devIdN := XN.mk NType.element "device" "" [("ID", some devID)] none none
  let netN := XN.mk NType.element "net" "" [] (some portN) (some devIdN)
  let ttyN := XN.mk NType.element "tty" "" [] (some (txtN "/dev/ttyS0")) none
  let serialN := XN.mk NType.element "serial" "" [] (some ttyN) (some netN)
  let configN := XN.mk NType.element "config" "" [] (some serialN) none
  let pidN := XN.mk NType.element "pid" "" [] (some (txtN "41")) none
  let protocolN := XN.mk NType.element "protocol" "" [("name", some "P300")] (some pidN) none
  let unitRefN := XN.mk NType.element "unit" "" [] (some (txtN unitName)) none
  let addrN := XN.mk NType.element "addr" "" [] (some (txtN "0800")) (some unitRefN)
  let commandN := XN.mk NType.element "command" ""
    [("name", some "getTempA"), ("protocmd", some "getaddr")] (some addrN) none
  let commandsN := XN.mk NType.element "commands" "" [] (some commandN) none
  let deviceN := XN.mk NType.element "device" ""
    [("name", some "V200"), ("ID", some "2094"), ("protocol", some "P300")] none none
  let devicesN := XN.mk NType.element "devices" "" [] (some deviceN) (some commandsN)
  let abbrevN := XN.mk NType.element "abbrev" "" [] (some (txtN "UT")) none
  let unitN := XN.mk NType.element "unit" "" [("name", some "Temperatur")] (some abbrevN) none
  let unitsN := XN.mk NType.element "units" "" [] (some unitN) (some devicesN)
  let protocolsN := XN.mk NType.element "protocols" "" [] (some protocolN) (some unitsN)
  let vitoN := XN.mk NType.element "vito" "" [] (some protocolsN) none
  let externN := XN.mk NType.element "extern" "" [] (some vitoN) none
  let unixN := XN.mk NType.element "unix" "" [] (some configN) (some externN)
  let rootN := XN.mk NType.element "V-Control" "" [] (some unixN) none
  ⟨some rootN, true, 1⟩

/-- The document on which every stage succeeds. -/
def succDoc : XDoc := mkDoc "2094" "UT"

/-- The document whose default-device id `9999` does not resolve: the last
compiler stage fails after the whole candidate has been allocated. -/
def failDoc : XDoc := mkDoc "9999" "UT"

/-- The document whose command names unit `XX`, which no unit declares. -/
def danglingUnitDoc : XDoc := mkDoc "2094" "XX"

/-- A non-empty previously loaded generation (one Config record). -/
def prevM : Model :=
  { protos := [], units := [], devs := [], cmds := [], cfg := cfg0 }

/-- A unit matches a name-keyed scan when its abbreviation is absent (the
wildcard case) or equal to the searched name. -/
def unitHit (nm : String) (u : Unit) : Bool :=
  match u.abbr with
  | none => true
  | some ab => ab.s == nm

/-- A macro matches when its name is absent or equal. -/
def macroHit (nm : String) (m : Macro) : Bool :=
  match m.name with
  | none => true
  | some n => n.s == nm

/-- An internal command matches when its name is absent or equal. -/
def icmdHit (nm : String) (c : ICmd) : Bool :=
  match c.name with
  | none => true
  | some n => n.s == nm

/-- A command matches when its name is absent or equal. -/
def cmdHit (nm : String) (c : Command) : Bool :=
  match c.name with
  | none => true
  | some n => n.s == nm

/-- Byte-pattern match of an enumeration entry (`memcmp` over `len` bytes;
entries without a byte pattern never match). -/
def enumBytesHit (s : List Nat) (n : Nat) (e : Enumerate) : Bool :=
  match e.bytes with
  | some bv => memEq bv.bs s n
  | none => false

/-- Exact text match of an enumeration entry. -/
def enumTextHit (s : List Nat) (e : Enumerate) : Bool :=
  match e.text with
  | some tv => strBytes tv.s == s
  | none => false

/-- An ACL rule matches a candidate address when the masked network-order
addresses coincide. -/
def allowHit (ip : Nat × Nat × Nat × Nat) (r : Allow) : Bool :=
  ntohl4 r.ip &&& r.mask == ntohl4 ip &&& r.mask

/-- The enumeration list of the spec's worked example: `on = [0x01]`,
`off = [0x00]`, and the default entry `auto` with no byte pattern. -/
def enumOn : Enumerate := { text := some ⟨"on", 0⟩, bytes := some ⟨[1], 1⟩, len := 1 }

/-- The `off` entry. -/
def enumOff : Enumerate := { text := some ⟨"off", 2⟩, bytes := some ⟨[0], 3⟩, len := 1 }

/-- The default entry. -/
def enumAuto : Enumerate := { text := some ⟨"auto", 4⟩, bytes := none, len := 0 }

/-- The example unit's enumeration list. -/
def enumEx : List Enumerate := [enumOn, enumOff, enumAuto]

/-- The net section fragment `<net><allow ip="10.0.0.0/24"/></net>` fed to
`parseConfig` to exhibit the CIDR mask derivation. -/
def netDocN : XN :=
  XN.mk NType.element "net" "" []
    (some (XN.mk NType.element "allow" "" [("ip", some "10.0.0.0/24")] none none)) none

/-- The same fragment with the suffix omitted: `<allow ip="10.0.0.5"/>`. -/
def netDocN32 : XN :=
  XN.mk NType.element "net" "" []
    (some (XN.mk NType.element "allow" "" [("ip", some "10.0.0.5")] none none)) none

/-- The rule for `10.0.0.0/24` with its `parseConfig`-derived mask. -/
def rule24a : Allow :=
  { text := ⟨"10.0.0.0/24", 0⟩, ip := (10, 0, 0, 0), mask := buildMask 24 }

/-- The rule for `10.0.1.0/24`. -/
def rule24b : Allow :=
  { text := ⟨"10.0.1.0/24", 0⟩, ip := (10, 0, 1, 0), mask := buildMask 24 }

/-- A protocol record used by several concrete instances. -/
def protoP : Protocol := { name := ⟨"P", 0⟩, id := 0, mPtr := [], icPtr := [] }

/-- The record the propagation step appends: every field of the generic
command taken over verbatim (same allocation identities — borrowed, not
copied) and the ownership tag left 0, the borrows-everything tag under
which `removeCommandList` frees none of the string fields. -/
def borrowRec (c : Command) : Command :=
  { name := c.name, pcmd := c.pcmd, addr := c.addr, unit := c.unit,
    precmd := c.precmd, description := c.description, errStr := c.errStr,
    len := c.len, bit := c.bit, nodeType := 0 }

/-- A generic command instance for the C3 witness. -/
def cW : Command :=
  { name := some ⟨"getX", 0⟩, pcmd := some ⟨"pc", 1⟩, addr := some ⟨"0800", 2⟩,
    unit := some ⟨"UT", 3⟩, precmd := none, description := some ⟨"d", 4⟩,
    errStr := none, len := 2, bit := -1, nodeType := 1 }

/-- A device with an empty command list for the C3 witness. -/
def dEmpty : Device :=
  { name := ⟨"V", 5⟩, id := ⟨"1", 6⟩, protoPtr := protoP, cmdPtr := [] }

/-- The attribute list of a fully attributed device element. -/
def devProps : List (String × Option String) :=
  [("name", some "V200"), ("ID", some "2094"), ("protocol", some "P")]

/-- A device element carrying `ID` and a resolvable `protocol` but no
`name` attribute. -/
def noNameDev : XN :=
  XN.mk NType.element "device" "" [("ID", some "7"), ("protocol", some "P")] none none

/-- The nested device element of the C4 witness: `ID` resolves to the only
device, no nested `protocmd`, no children. -/
def devUnderCmd : XN :=
  XN.mk NType.element "device" "" [("ID", some "2094")] none none

/-- The single device of the C4 witness. -/
def dev2094 : Device :=
  { name := ⟨"V200", 10⟩, id := ⟨"2094", 11⟩, protoPtr := protoP, cmdPtr := [] }

/-- The merged record of the C4 witness: `name`/`description` are `cW`'s
own `StrV`s (ids 0 and 4), `unit` and `pcmd` are fresh copies (ids 6, 7),
tag 2. -/
def mergeW : Command :=
  { name := some ⟨"getX", 0⟩, pcmd := some ⟨"pc", 7⟩, addr := none,
    unit := some ⟨"UT", 6⟩, precmd := none, description := some ⟨"d", 4⟩,
    errStr := none, len := 0, bit := -1, nodeType := 2 }

theorem getUnitNode_eq_find (l : List Unit) (nm : String) :
    getUnitNode l nm = l.find? (unitHit nm) := by
  induction l with
  | nil => rfl
  | cons u t ih =>
    cases h : u.abbr with
    | none => simp [getUnitNode, List.find?, unitHit, h]
    | some ab =>
      by_cases hs : ab.s = nm
      · simp [getUnitNode, List.find?, unitHit, h, hs]
      · have hb : (ab.s == nm) = false := by simp [hs]
        simp [getUnitNode, List.find?, unitHit, h, hs, hb, ih]

theorem getMacroNode_eq_find (l : List Macro) (nm : String) :
    getMacroNode l nm = l.find? (macroHit nm) := by
  induction l with
  | nil => rfl
  | cons m t ih =>
    cases h : m.name with
    | none => simp [getMacroNode, List.find?, macroHit, h]
    | some n =>
      by_cases hs : n.s = nm
      · simp [getMacroNode, List.find?, macroHit, h, hs]
      · have hb : (n.s == nm) = false := by simp [hs]
        simp [getMacroNode, List.find?, macroHit, h, hs, hb, ih]

theorem getIcmdNode_eq_find (l : List ICmd) (nm : String) :
    getIcmdNode l nm = l.find? (icmdHit nm) := by
  induction l with
  | nil => rfl
  | cons c t ih =>
    cases h : c.name with
    | none => simp [getIcmdNode, List.find?, icmdHit, h]
    | some n =>
      by_cases hs : n.s = nm
      · simp [getIcmdNode, List.find?, icmdHit, h, hs]
      · have hb : (n.s == nm) = false := by simp [hs]
        simp [getIcmdNode, List.find?, icmdHit, h, hs, hb, ih]

theorem getCommandNode_eq_find (l : List Command) (nm : String) :
    getCommandNode l (some nm) = l.find? (cmdHit nm) := by
  induction l with
  | nil => rfl
  | cons c t ih =>
    cases h : c.name with
    | none => simp [getCommandNode, List.find?, cmdHit, h]
    | some n =>
      by_cases hs : n.s = nm
      · simp [getCommandNode, List.find?, cmdHit, h, hs]
      · have hb : (n.s == nm) = false := by simp [hs]
        simp [getCommandNode, List.find?, cmdHit, h, hs, hb, ih]

theorem getCommandNode_none_eq_head (l : List Command) :
    getCommandNode l none = l.head? := by
  cases l with
  | nil => rfl
  | cons c t => rfl

theorem getAllowNode_eq_find (l : List Allow) (ip : Nat × Nat × Nat × Nat) :
    getAllowNode l ip = l.find? (allowHit ip) := by
  induction l with
  | nil => rfl
  | cons r t ih =>
    by_cases h : ntohl4 r.ip &&& r.mask = ntohl4 ip &&& r.mask
    · simp [getAllowNode, List.find?, allowHit, h]
    · have hb : (ntohl4 r.ip &&& r.mask == ntohl4 ip &&& r.mask) = false := by simp [h]
      simp [getAllowNode, List.find?, allowHit, h, hb, ih]

theorem getEnumNode_pos_eq_find (l : List Enumerate) (s : List Nat) (len : Int)
    (hl : 0 < len) : getEnumNode l s len = l.find? (enumBytesHit s len.toNat) := by
  have h1 : decide (len > 0) = true := decide_eq_true hl
  have h2 : decide (len = 0) = false := decide_eq_false (by omega)
  have h3 : decide (len < 0) = false := decide_eq_false (by omega)
  induction l with
  | nil => rfl
  | cons e t ih =>
    cases hb : e.bytes with
    | none => simp [getEnumNode, List.find?, enumBytesHit, hb, h1, h2, h3, ih]
    | some bv =>
      by_cases hm : memEq bv.bs s len.toNat = true
      · simp [getEnumNode, List.find?, enumBytesHit, hb, h1, h2, h3, hm]
      · have hm' : memEq bv.bs s len.toNat = false := by
          exact Bool.eq_false_iff.mpr hm
        simp [getEnumNode, List.find?, enumBytesHit, hb, h1, h2, h3, hm', ih]

theorem getEnumNode_zero_eq_find (l : List Enumerate) (s : List Nat) :
    getEnumNode l s 0 = l.find? (enumTextHit s) := by
  induction l with
  | nil => rfl
  | cons e t ih =>
    cases ht : e.text with
    | none => simp [getEnumNode, List.find?, enumTextHit, ht, ih]
    | some tv =>
      by_cases hm : strBytes tv.s = s
      · simp [getEnumNode, List.find?, enumTextHit, ht, hm]
      · have hb : (strBytes tv.s == s) = false := by simp [hm]
        simp [getEnumNode, List.find?, enumTextHit, ht, hm, hb, ih]

theorem getEnumNode_neg_eq_find (l : List Enumerate) (s : List Nat) (len : Int)
    (hl : len < 0) : getEnumNode l s len = l.find? (fun e => e.bytes.isNone) := by
  have h1 : decide (len > 0) = false := decide_eq_false (by omega)
  have h2 : decide (len = 0) = false := decide_eq_false (by omega)
  have h3 : decide (len < 0) = true := decide_eq_true hl
  induction l with
  | nil => rfl
  | cons e t ih =>
    cases hb : e.bytes with
    | none => simp [getEnumNode, List.find?, hb, h1, h2, h3]
    | some bv => simp [getEnumNode, List.find?, hb, h1, h2, h3, ih]

/-- Claim C5 (corrected): the claim describes the forward condition of
`getNextNode` as "is not a pure-whitespace text node"; the code's condition
(`xmlconfig.c:1299`) is "is not a text node" of any content.  On a
non-whitespace trailing text sibling the two differ, so the claim as
stated is false; this counterexample exhibits the disagreement: the code
falls back to the ancestor's sibling `q`, while the claim's rule returns
the text node itself. -/
theorem claim5_counterexample :
    (getNextNode (XN.mk NType.element "cur" "" []
        none (some (XN.mk NType.text "text" "x" [] none none)))
      (some (XN.mk NType.element "p" "" [] none
        (some (XN.mk NType.element "q" "" [] none none))))).map XN.name = some "q" ∧
    (getNextNodeSpec (XN.mk NType.element "cur" "" []
        none (some (XN.mk NType.text "text" "x" [] none none)))
      (some (XN.mk NType.element "p" "" [] none
        (some (XN.mk NType.element "q" "" [] none none))))).map XN.name = some "text" := by
  exact ⟨rfl, rfl⟩

/-- Claim C5 (amended): `getNextNode cur prev` returns `cur`'s direct
sibling when that sibling exists and either is not a text node (the code
does not test for whitespace) or itself has a further sibling; otherwise it
returns `prev`'s sibling when `prev` is non-null; otherwise none.  In
particular any lone trailing text node — blank or not — is skipped in
favour of the ancestor fallback. -/
theorem claim5_amended (cur : XN) (prev : Option XN) :
    (∀ nxt, cur.next = some nxt → (nxt.ntype ≠ NType.text ∨ nxt.next.isSome) →
      getNextNode cur prev = some nxt) ∧
    (∀ nxt, cur.next = some nxt → nxt.ntype = NType.text → nxt.next = none →
      getNextNode cur prev = prev.bind XN.next) ∧
    (cur.next = none → getNextNode cur prev = prev.bind XN.next) := by
  refine ⟨?_, ?_, ?_⟩
  · intro nxt h hcond
    simp [getNextNode, h, if_pos hcond]
  · intro nxt h htype hnone
    have hcond : ¬ (nxt.ntype ≠ NType.text ∨ nxt.next.isSome) := by
      simp [htype, hnone]
    simp only [getNextNode, h, if_neg hcond]
    cases prev <;> rfl
  · intro h
    simp only [getNextNode, h]
    cases prev <;> rfl

/-- Witness for C5: on a lone trailing non-blank text sibling the fallback
is taken (first conjunct of the instance), and a direct element sibling is
returned (second conjunct). -/
theorem claim5_witness :
    getNextNode (XN.mk NType.element "cur" "" []
        none (some (XN.mk NType.text "text" "x" [] none none)))
      (some (XN.mk NType.element "p" "" [] none
        (some (XN.mk NType.element "q" "" [] none none))))
      = some (XN.mk NType.element "q" "" [] none none) ∧
    getNextNode (XN.mk NType.element "c2" "" []
        none (some (XN.mk NType.element "e2" "" [] none none))) none
      = some (XN.mk NType.element "e2" "" [] none none) := by
  constructor
  · exact (claim5_amended _ _).2.1 _ rfl rfl rfl
  · exact (claim5_amended _ _).1 _ rfl (Or.inl (by decide))

/-- Claim C6 (corrected): `getEnumNode` dispatches on the sign of `len`: a
positive length returns the first entry whose byte pattern matches, zero
length the first entry whose text matches exactly, and a negative length
the first entry with a null byte pattern (the default).  The spec's worked
example behaves as stated for the byte, text and explicit-default lookups —
but an unmatched byte-pattern query returns no entry, not the default (see
the counterexample), so the default is reached only by an explicit
negative-length query. -/
theorem claim6_amended :
    (∀ (l : List Enumerate) (s : List Nat) (len : Int), 0 < len →
      getEnumNode l s len = l.find? (enumBytesHit s len.toNat)) ∧
    (∀ (l : List Enumerate) (s : List Nat),
      getEnumNode l s 0 = l.find? (enumTextHit s)) ∧
    (∀ (l : List Enumerate) (s : List Nat) (len : Int), len < 0 →
      getEnumNode l s len = l.find? (fun e => e.bytes.isNone)) ∧
    getEnumNode enumEx [1] 1 = some enumOn ∧
    getEnumNode enumEx (strBytes "off") 0 = some enumOff ∧
    getEnumNode enumEx [5] (-1) = some enumAuto ∧
    getEnumNode enumEx [5] 1 = none := by
  refine ⟨getEnumNode_pos_eq_find, getEnumNode_zero_eq_find, getEnumNode_neg_eq_find,
    ?_, ?_, ?_, ?_⟩ <;> decide

/-- Witness for C6: the positive-length characterization applied to the
example list at a concrete unmatched pattern. -/
theorem claim6_witness :
    getEnumNode enumEx [0] 1 = enumEx.find? (enumBytesHit [0] 1) :=
  claim6_amended.1 enumEx [0] 1 (by norm_num)

/-- Counterexample for C6: looking up the example unit with the unmatched
byte pattern `[0x05]` (and no text) returns no entry at all, while the
claim says the default entry `auto` (the one whose byte pattern is null,
present in the list) would be returned. -/
theorem claim6_counterexample :
    getEnumNode enumEx [5] 1 = none ∧ enumAuto ∈ enumEx ∧ enumAuto.bytes = none := by
  refine ⟨by decide, by decide, rfl⟩

/-- Claim C7 (confirmed): the ACL query returns a rule exactly when some
rule, scanned in declared order, satisfies
`ntohl(rule.ip) & mask = ntohl(candidate) & mask` (first conjunct: the scan
is the first match of that predicate); `parseConfig` derives `mask` from
the CIDR suffix (`/24` gives `0xFFFFFF00`; an omitted suffix defaults to
`/32`, giving `0xFFFFFFFF`); and address `10.0.0.5` matches the rule for
`10.0.0.0/24` but not the rule for `10.0.1.0/24`. -/
theorem claim7 :
    (∀ (l : List Allow) (ip : Nat × Nat × Nat × Nat),
      getAllowNode l ip = l.find? (allowHit ip)) ∧
    (getAllowNode [rule24a] (10, 0, 0, 5)).isSome = true ∧
    getAllowNode [rule24b] (10, 0, 0, 5) = none ∧
    ((parseConfig 10 (some netDocN) ⟨0, 0⟩).1.map
        (fun cfg => cfg.aPtr.map (fun r => (r.ip, r.mask))))
      = some [((10, 0, 0, 0), 0xFFFFFF00)] ∧
    ((parseConfig 10 (some netDocN32) ⟨0, 0⟩).1.map
        (fun cfg => cfg.aPtr.map (fun r => (r.ip, r.mask))))
      = some [((10, 0, 0, 5), 0xFFFFFFFF)] ∧
    buildMask 32 = 0xFFFFFFFF := by
  refine ⟨getAllowNode_eq_find, ?_, ?_, ?_, ?_, ?_⟩ <;> decide

/-- Claim C1 (corrected): on any failing run (`parseXMLFile` returns 0) the
previously active generation is untouched — the globals are returned
unchanged and no entity record is freed.  The further part of the claim,
that the candidate built so far is released, is false: no failure path of
the C function frees anything (see the counterexample, where seven records
have been allocated for the candidate and none freed). -/
theorem claim1_amended (fuel : Nat) (doc : XDoc) (g : Globals) (a : Alloc)
    (g' : Globals) (h : (parseXMLFile fuel doc g a).1 = some (0, g')) :
    g' = g ∧ (parseXMLFile fuel doc g a).2.2 = 0 := by
  rcases hc : compileDoc fuel doc a with ⟨o, a1⟩
  cases o with
  | none => simp [parseXMLFile, hc] at h
  | some o2 =>
    cases o2 with
    | none =>
      simp only [parseXMLFile, hc] at h ⊢
      simp at h
      exact ⟨h.symm, trivial⟩
    | some m => simp [parseXMLFile, hc] at h

/-- Witness for C1: the failing document (unresolved default device) leaves
the previous generation installed and frees nothing. -/
theorem claim1_witness :
    (some prevM : Globals) = some prevM ∧
    (parseXMLFile 50 failDoc (some prevM) ⟨0, 0⟩).2.2 = 0 :=
  claim1_amended 50 failDoc (some prevM) ⟨0, 0⟩ (some prevM) (by decide)

/-- Counterexample for C1: reloading `failDoc` (its default-device id
`9999` does not resolve) over the generation `prevM` returns 0 with the
globals unchanged, but seven entity records were allocated for the
candidate during the call and zero were freed — the candidate is leaked,
not released, refuting "everything allocated for it is released". -/
theorem claim1_counterexample :
    (parseXMLFile 50 failDoc (some prevM) ⟨0, 0⟩).1 = some (0, some prevM) ∧
    (parseXMLFile 50 failDoc (some prevM) ⟨0, 0⟩).2.1.allocs = 7 ∧
    (parseXMLFile 50 failDoc (some prevM) ⟨0, 0⟩).2.2 = 0 :=
  ⟨by decide, by decide, by decide⟩

/-- Claim C2 (confirmed): when every stage succeeds, `parseXMLFile` returns
1, the globals afterwards hold exactly the model compiled from the document
(`compileDoc`'s candidate, assembled from the `T…Ptr` locals), and the
previously active generation is released as a unit — the number of records
freed is `freeAllLists g`, the size of the whole old generation. -/
theorem claim2 (fuel : Nat) (doc : XDoc) (g : Globals) (a : Alloc)
    (h : (parseXMLFile fuel doc g a).1.map Prod.fst = some 1) :
    ∃ (m : Model) (a1 : Alloc),
      compileDoc fuel doc a = (some (some m), a1) ∧
      parseXMLFile fuel doc g a = (some (1, some m), a1, freeAllLists g) := by
  rcases hc : compileDoc fuel doc a with ⟨o, a1⟩
  cases o with
  | none => simp [parseXMLFile, hc] at h
  | some o2 =>
    cases o2 with
    | none => simp [parseXMLFile, hc] at h
    | some m => exact ⟨m, a1, rfl, by simp [parseXMLFile, hc]⟩

/-- Witness for C2: the successful document, loaded over the non-empty
generation `prevM`, installs the compiled candidate and frees the old
generation (here one record). -/
theorem claim2_witness :
    ∃ (m : Model) (a1 : Alloc),
      compileDoc 50 succDoc ⟨0, 0⟩ = (some (some m), a1) ∧
      parseXMLFile 50 succDoc (some prevM) ⟨0, 0⟩
        = (some (1, some m), a1, freeAllLists (some prevM)) :=
  claim2 50 succDoc (some prevM) ⟨0, 0⟩ (by decide)

/-- Claim C3 (confirmed): for a generic command `c` and a device `d`, when
`d`'s list has no entry named `c.name` the propagation step appends exactly
`borrowRec c` — all nine fields are `c`'s own values (shared allocation
identities) and the string-allocation counter does not move, so nothing is
copied — and when `d` already has a matching entry `e` (a device-specific
override), nothing is appended and the name lookup still returns `e`, the
earlier-inserted override, because `getCommandNode` is a first-match scan
in insertion order (the characterization is in the C10 development). -/
theorem claim3 :
    (∀ (c : Command) (d : Device) (a : Alloc),
      getCommandNode d.cmdPtr (c.name.map StrV.s) = none →
      propagateCmdDev c d a
        = ({ d with cmdPtr := d.cmdPtr ++ [borrowRec c] }, allocRec a) ∧
      (borrowRec c).name = c.name ∧ (borrowRec c).pcmd = c.pcmd ∧
      (borrowRec c).addr = c.addr ∧ (borrowRec c).unit = c.unit ∧
      (borrowRec c).bit = c.bit ∧ (borrowRec c).errStr = c.errStr ∧
      (borrowRec c).precmd = c.precmd ∧ (borrowRec c).description = c.description ∧
      (borrowRec c).len = c.len ∧ (borrowRec c).nodeType = 0 ∧
      (allocRec a).ctr = a.ctr) ∧
    (∀ (c : Command) (d : Device) (a : Alloc) (e : Command),
      getCommandNode d.cmdPtr (c.name.map StrV.s) = some e →
      propagateCmdDev c d a = (d, a) ∧
      getCommandNode (propagateCmdDev c d a).1.cmdPtr (c.name.map StrV.s) = some e) := by
  constructor
  · intro c d a h
    refine ⟨?_, rfl, rfl, rfl, rfl, rfl, rfl, rfl, rfl, rfl, rfl, rfl⟩
    simp [propagateCmdDev, h, borrowRec]
  · intro c d a e h
    have hs : (getCommandNode d.cmdPtr (c.name.map StrV.s)).isSome = true := by
      simp [h]
    exact ⟨by simp [propagateCmdDev, hs], by simp [propagateCmdDev, hs, h]⟩

/-- Witness for C3: propagating `cW` into the command-less device appends
the borrowing record. -/
theorem claim3_witness :
    propagateCmdDev cW dEmpty ⟨7, 0⟩
      = ({ dEmpty with cmdPtr := [borrowRec cW] }, allocRec ⟨7, 0⟩) :=
  (claim3.1 cW dEmpty ⟨7, 0⟩ (by decide)).1

/-- Claim C9 (corrected): a `device` element needs only its `protocol`
attribute: a missing `protocol` attribute or an unresolvable protocol name
makes `parseDevice` return `NULL` (first two conjuncts), but a missing
`name` or `ID` is not an error — the builder substitutes the empty string
via `nullIT` and proceeds (third conjunct; the counterexample shows a
name-less device building successfully, refuting the claim as stated). -/
theorem claim9_amended :
    (∀ (fuel : Nat) (nm ct : String) (props : List (String × Option String))
       (ch nxt prev : Option XN) (done : List Device) (protos : List Protocol)
       (a : Alloc),
      strHasSub nm "device" = true →
      getProp props "protocol" = none →
      parseDeviceLoop (fuel + 1) (some (XN.mk NType.element nm ct props ch nxt))
        prev done protos a = (some none, a)) ∧
    (∀ (fuel : Nat) (nm ct : String) (props : List (String × Option String))
       (ch nxt prev : Option XN) (done : List Device) (protos : List Protocol)
       (a : Alloc) (pr : String),
      strHasSub nm "device" = true →
      getProp props "protocol" = some pr →
      getProtocolNode protos pr = none →
      ∃ a', parseDeviceLoop (fuel + 1) (some (XN.mk NType.element nm ct props ch nxt))
        prev done protos a = (some none, a')) ∧
    (∀ (fuel : Nat) (nm ct : String) (props : List (String × Option String))
       (ch nxt prev : Option XN) (done : List Device) (protos : List Protocol)
       (a : Alloc) (pr : String) (p : Protocol),
      strHasSub nm "device" = true →
      getProp props "protocol" = some pr →
      getProtocolNode protos pr = some p →
      ∃ (nv iv : StrV) (a' : Alloc),
        parseDeviceLoop (fuel + 1) (some (XN.mk NType.element nm ct props ch nxt))
          prev done protos a
          = parseDeviceLoop fuel nxt (some (XN.mk NType.element nm ct props ch nxt))
              (done ++ [{ name := nv, id := iv, protoPtr := p, cmdPtr := [] }]) protos a'
        ∧ (getProp props "name" = none → nv.s = "")
        ∧ (∀ s, getProp props "name" = some s → nv.s = s)
        ∧ (getProp props "ID" = none → iv.s = "")
        ∧ (∀ s, getProp props "ID" = some s → iv.s = s)) := by
  refine ⟨?_, ?_, ?_⟩
  · intro fuel nm ct props ch nxt prev done protos a h1 h2
    simp [parseDeviceLoop, XN.ntype, XN.name, XN.props, h1, h2, xmlIsBlankNode]
  · intro fuel nm ct props ch nxt prev done protos a pr h1 h2 h3
    refine ⟨(setStrOpt (setStrOpt (allocRec a) (getProp props "name")).2
      (getProp props "ID")).2, ?_⟩
    simp [parseDeviceLoop, XN.ntype, XN.name, XN.props, h1, h2, h3]
  · intro fuel nm ct props ch nxt prev done protos a pr p h1 h2 h3
    refine ⟨(setStrOpt (allocRec a) (getProp props "name")).1,
      (setStrOpt (setStrOpt (allocRec a) (getProp props "name")).2
        (getProp props "ID")).1,
      (setStrOpt (setStrOpt (allocRec a) (getProp props "name")).2
        (getProp props "ID")).2, ?_, ?_, ?_, ?_, ?_⟩
    · simp [parseDeviceLoop, XN.ntype, XN.name, XN.props, XN.next, h1, h2, h3]
    · intro h; simp [setStrOpt, nullIT, allocStr, h]
    · intro s h; simp [setStrOpt, allocStr, h]
    · intro h; simp [setStrOpt, nullIT, allocStr, h]
    · intro s h; simp [setStrOpt, allocStr, h]

/-- Witness for C9: the resolving branch applied to a fully attributed
device element. -/
theorem claim9_witness :
    ∃ (nv iv : StrV) (a' : Alloc),
      parseDeviceLoop (0 + 1) (some (XN.mk NType.element "device" "" devProps none none))
        none [] [protoP] ⟨0, 0⟩
        = parseDeviceLoop 0 none (some (XN.mk NType.element "device" "" devProps none none))
            ([] ++ [{ name := nv, id := iv, protoPtr := protoP, cmdPtr := [] }]) [protoP] a'
      ∧ (getProp devProps "name" = none → nv.s = "")
      ∧ (∀ s, getProp devProps "name" = some s → nv.s = s)
      ∧ (getProp devProps "ID" = none → iv.s = "")
      ∧ (∀ s, getProp devProps "ID" = some s → iv.s = s) :=
  claim9_amended.2.2 0 "device" "" devProps none none none [] [protoP] ⟨0, 0⟩
    "P" protoP (by decide) rfl rfl

/-- Counterexample for C9: the claim says a device element missing any of
`name`, `ID`, `protocol` fails the build; in fact this name-less element
builds successfully, with the empty string for its name. -/
theorem claim9_counterexample :
    getProp noNameDev.props "name" = none ∧
    (parseDevice 3 (some noNameDev) [protoP] ⟨1, 0⟩).1
      = some (some [⟨⟨"", 1⟩, ⟨"7", 2⟩, protoP, []⟩]) :=
  ⟨by decide, by decide⟩

/-- Helper: a successfully compiled model has its default device resolved —
the success branch of `compileDoc` is reachable only after
`getDeviceNode` succeeds on the config's devID. -/
theorem compileDoc_success_devResolved (fuel : Nat) (doc : XDoc) (a : Alloc)
    (m : Model) (a1 : Alloc) (h : compileDoc fuel doc a = (some (some m), a1)) :
    ∃ (did : StrV) (d : Device), m.cfg.devID = some did ∧
      getDeviceNode m.devs did.s = some d ∧ m.cfg.devPtr = some d := by
  unfold compileDoc at h
  repeat' split at h
  all_goals simp_all
  obtain ⟨hm, -⟩ := h
  subst hm
  simp_all

/-- Claim C8 (corrected): two of the three listed unresolved references are
indeed fatal: a nested command's device ID that does not resolve makes
`parseCommand` return `NULL` on the spot (first conjunct), and a successful
`parseXMLFile` run always has the config's default-device id resolved
against the device chain (second conjunct; contrapositive: an unresolved
default device cannot return 1).  But the claim's unit clause is false:
`parseXMLFile` never resolves command unit names against the Unit chain —
`compileCommand`, which does, lives outside this function and runs only
after a successful load — so a load can succeed while containing a command
whose unit name matches no unit (see the counterexample). -/
theorem claim8_amended :
    (∀ (fuel : Nat) (nm ct : String) (props : List (String × Option String))
       (ch nxt prev : Option XN) (done : List Command) (c : Command)
       (inChain : Bool) (devs : List Device) (a : Alloc) (idv : String),
      nm ≠ "command" →
      strHasSub nm "device" = true →
      getProp props "ID" = some idv →
      devFindIdx devs idv = none →
      parseCommandLoop (fuel + 1) (some (XN.mk NType.element nm ct props ch nxt))
        prev done (some c) inChain devs a
        = (some ⟨true, done, some c, inChain, devs⟩, a)) ∧
    (∀ (fuel : Nat) (doc : XDoc) (g : Globals) (a : Alloc),
      (parseXMLFile fuel doc g a).1.map Prod.fst = some 1 →
      ∃ (m : Model) (did : StrV) (d : Device),
        (parseXMLFile fuel doc g a).1 = some (1, some m) ∧
        m.cfg.devID = some did ∧
        getDeviceNode m.devs did.s = some d ∧
        m.cfg.devPtr = some d) := by
  constructor
  · intro fuel nm ct props ch nxt prev done c inChain devs a idv h1 h2 h3 h4
    simp [parseCommandLoop, XN.ntype, XN.name, XN.props, xmlIsBlankNode,
      h1, h2, h3, h4]
  · intro fuel doc g a h
    rcases hc : compileDoc fuel doc a with ⟨o, a1⟩
    cases o with
    | none => simp [parseXMLFile, hc] at h
    | some o2 =>
      cases o2 with
      | none => simp [parseXMLFile, hc] at h
      | some m =>
        obtain ⟨did, d, hdid, hres, hdev⟩ :=
          compileDoc_success_devResolved fuel doc a m a1 hc
        exact ⟨m, did, d, by simp [parseXMLFile, hc], hdid, hres, hdev⟩

/-- Witness for C8: the first conjunct applied to a device element whose ID
`5000` cannot resolve in the empty device chain (the builder errors out),
and the second applied to the successful document. -/
theorem claim8_witness :
    (parseCommandLoop (3 + 1)
        (some (XN.mk NType.element "device" "" [("ID", some "5000")] none none))
        none [] (some cW) true [] ⟨8, 0⟩
      = (some ⟨true, [], some cW, true, []⟩, ⟨8, 0⟩)) ∧
    (∃ (m : Model) (did : StrV) (d : Device),
      (parseXMLFile 50 succDoc none ⟨0, 0⟩).1 = some (1, some m) ∧
      m.cfg.devID = some did ∧
      getDeviceNode m.devs did.s = some d ∧
      m.cfg.devPtr = some d) :=
  ⟨claim8_amended.1 3 "device" "" [("ID", some "5000")] none none none [] cW
      true [] ⟨8, 0⟩ "5000" (by decide) (by decide) rfl rfl,
    claim8_amended.2 50 succDoc none ⟨0, 0⟩ (by decide)⟩

/-- Counterexample for C8: the document whose only command names unit `XX`
— which `getUnitNode` cannot resolve in the loaded unit chain — still loads
successfully (`parseXMLFile` returns 1), refuting the clauses "if a
command's unit name does not resolve ... parseXMLFile returns 0" and "no
successful load contains such an unresolved reference". -/
theorem claim8_counterexample :
    (parseXMLFile 50 danglingUnitDoc none ⟨0, 0⟩).1.map Prod.fst = some 1 ∧
    (match (parseXMLFile 50 danglingUnitDoc none ⟨0, 0⟩).1 with
     | some (_, some m) =>
         decide (m.cmds.map (fun c => c.unit.map StrV.s) = [some "XX"]) &&
         decide (getUnitNode m.units "XX" = none)
     | _ => false) = true :=
  ⟨by decide, by decide⟩

/-- Helper: a string freshly allocated at or above the counter differs from
any string allocated earlier (distinct allocation identity). -/
theorem strv_ne_of_id_lt {q : StrV} {s : String} {n : Nat} (h : q.id < n) :
    (some (⟨s, n⟩ : StrV) : Option StrV) ≠ some q := by
  intro he
  injection he with he2
  rw [← he2] at h
  simp at h

/-- Claim C4 (confirmed), first half: the `mergeDeviceCmd` fix-up gives the
device-scoped record the enclosing command's `name` and `description` by
shared reference (the very same `StrV` values, hence the same allocation
identities), gives it the enclosing `unit` as a value copy (same contents,
fresh allocation id `a.ctr`) only when the nested record set none, takes
`pcmd` from the nested `protocmd` attribute when present and otherwise as a
value copy (same contents, provably distinct identity) of the enclosing
`pcmd`, and tags the record 2 ("borrowed").  Second half: the device branch
of `parseCommandLoop` appends exactly the merged record to the command list
of the device the `ID` attribute resolved to, and continues the walk at
`getNextNode`. -/
theorem claim4 :
    (∀ (c ncF : Command) (pc : Option String) (a : Alloc),
      (pc = none → c.pcmd ≠ none) →
      ∃ (r : Command) (a' : Alloc),
        mergeDeviceCmd c ncF pc a = some (r, a') ∧
        r.name = c.name ∧
        r.description = c.description ∧
        (∀ v, ncF.unit = some v → r.unit = some v) ∧
        (∀ u, ncF.unit = none → c.unit = some u → r.unit = some ⟨u.s, a.ctr⟩) ∧
        (ncF.unit = none → c.unit = none → r.unit = none) ∧
        (∀ p, pc = some p → r.pcmd.map StrV.s = some p) ∧
        (∀ q, pc = none → c.pcmd = some q → r.pcmd.map StrV.s = some q.s) ∧
        (∀ q, pc = none → c.pcmd = some q → q.id < a.ctr → r.pcmd ≠ some q) ∧
        r.nodeType = 2) ∧
    (∀ (fuel : Nat) (nm ct : String) (props : List (String × Option String))
       (ch nxt prev : Option XN) (done : List Command) (c : Command)
       (inChain : Bool) (devs : List Device) (a : Alloc) (idv : String) (i : Nat)
       (sub : PCSt) (a2 : Alloc) (ncF nc : Command) (a3 : Alloc),
      nm ≠ "command" →
      strHasSub nm "device" = true →
      getProp props "ID" = some idv →
      devFindIdx devs idv = some i →
      c.description ≠ none →
      parseCommandLoop fuel ch none [] (some newCommandRec) false devs (allocRec a)
        = (some sub, a2) →
      sub.cu = some ncF →
      mergeDeviceCmd c ncF (getProp props "protocmd") a2 = some (nc, a3) →
      parseCommandLoop (fuel + 1) (some (XN.mk NType.element nm ct props ch nxt))
        prev done (some c) inChain devs a
        = parseCommandLoop fuel
            (getNextNode (XN.mk NType.element nm ct props ch nxt) prev) prev done
            (some c) inChain
            (listUpd sub.devs i (fun d => { d with cmdPtr := d.cmdPtr ++ [nc] })) a3) := by
  constructor
  · intro c ncF pc a hdef
    obtain ⟨cn, cp, ca, cun, cpr, cd, ce, cl, cb, ctg⟩ := c
    obtain ⟨nn, np, na, nun, npr, nd, ne, nl, nb, ntg⟩ := ncF
    cases pc with
    | some p =>
      cases nun with
      | some v =>
        exact ⟨_, _, rfl, rfl, rfl, by intro v' hv; simpa using hv,
          by intro u h; simp at h, by intro h; simp at h,
          by intro p' hp; injection hp with hp; subst hp; rfl,
          by intro q hq; simp at hq, by intro q hq; simp at hq, rfl⟩
      | none =>
        cases cun with
        | some u =>
          exact ⟨_, _, rfl, rfl, rfl, by intro v' hv; simp at hv,
            by intro u' h hu; injection hu with hu; subst hu; rfl,
            by intro h hu; simp at hu,
            by intro p' hp; injection hp with hp; subst hp; rfl,
            by intro q hq; simp at hq, by intro q hq; simp at hq, rfl⟩
        | none =>
          exact ⟨_, _, rfl, rfl, rfl, by intro v' hv; simp at hv,
            by intro u' h hu; simp at hu, by intro h hu; rfl,
            by intro p' hp; injection hp with hp; subst hp; rfl,
            by intro q hq; simp at hq, by intro q hq; simp at hq, rfl⟩
    | none =>
      cases cp with
      | none => exact absurd rfl (hdef rfl)
      | some q0 =>
        cases nun with
        | some v =>
          refine ⟨_, _, rfl, rfl, rfl, by intro v' hv; simpa using hv,
            by intro u h; simp at h, by intro h; simp at h,
            by intro p' hp; simp at hp,
            by intro q h hq; injection hq with hq; subst hq; rfl,
            ?_, rfl⟩
          intro q h hq hlt
          injection hq with hq; subst hq
          exact strv_ne_of_id_lt hlt
        | none =>
          cases cun with
          | some u =>
            refine ⟨_, _, rfl, rfl, rfl, by intro v' hv; simp at hv,
              by intro u' h hu; injection hu with hu; subst hu; rfl,
              by intro h hu; simp at hu,
              by intro p' hp; simp at hp,
              by intro q h hq; injection hq with hq; subst hq; rfl,
              ?_, rfl⟩
            intro q h hq hlt
            injection hq with hq; subst hq
            exact strv_ne_of_id_lt (Nat.lt_succ_of_lt hlt)
          | none =>
            refine ⟨_, _, rfl, rfl, rfl, by intro v' hv; simp at hv,
              by intro u' h hu; simp at hu, by intro h hu; rfl,
              by intro p' hp; simp at hp,
              by intro q h hq; injection hq with hq; subst hq; rfl,
              ?_, rfl⟩
            intro q h hq hlt
            injection hq with hq; subst hq
            exact strv_ne_of_id_lt hlt
  · intro fuel nm ct props ch nxt prev done c inChain devs a idv i sub a2 ncF nc a3
      h1 h2 h3 h4 h5 hrec hsub hmerge
    cases hd : c.description with
    | none => exact absurd hd h5
    | some dsc =>
      simp only [parseCommandLoop, XN.ntype, XN.name, XN.props, XN.children,
        xmlIsBlankNode]
      simp only [h3, h4, hd, hrec, hsub, hmerge]
      simp [h1, h2, xmlIsBlankNode, XN.ntype]

/-- Witness for C4: both halves at concrete inputs.  The nested record is
the freshly calloc'd `newCommandRec` (empty children), the enclosing
command is `cW`; the merged record shares `cW`'s `name`/`description`,
copies its `unit` and `pcmd`, and is appended to device `2094`'s list. -/
theorem claim4_witness :
    (∃ (r : Command) (a' : Alloc),
      mergeDeviceCmd cW newCommandRec none ⟨6, 1⟩ = some (r, a') ∧
      r.name = cW.name ∧
      r.description = cW.description ∧
      (∀ v, newCommandRec.unit = some v → r.unit = some v) ∧
      (∀ u, newCommandRec.unit = none → cW.unit = some u →
        r.unit = some ⟨u.s, (⟨6, 1⟩ : Alloc).ctr⟩) ∧
      (newCommandRec.unit = none → cW.unit = none → r.unit = none) ∧
      (∀ p, (none : Option String) = some p → r.pcmd.map StrV.s = some p) ∧
      (∀ q, (none : Option String) = none → cW.pcmd = some q →
        r.pcmd.map StrV.s = some q.s) ∧
      (∀ q, (none : Option String) = none → cW.pcmd = some q →
        q.id < (⟨6, 1⟩ : Alloc).ctr → r.pcmd ≠ some q) ∧
      r.nodeType = 2) ∧
    parseCommandLoop (1 + 1) (some devUnderCmd) none [] (some cW) true [dev2094] ⟨6, 0⟩
      = parseCommandLoop 1 (getNextNode devUnderCmd none) none [] (some cW) true
          (listUpd [dev2094] 0
            (fun d => { d with cmdPtr := d.cmdPtr ++ [mergeW] })) ⟨8, 1⟩ :=
  ⟨claim4.1 cW newCommandRec none ⟨6, 1⟩ (fun _ => by decide),
    claim4.2 1 "device" "" [("ID", some "2094")] none none none [] cW true
      [dev2094] ⟨6, 0⟩ "2094" 0 ⟨false, [], some newCommandRec, false, [dev2094]⟩
      ⟨6, 1⟩ newCommandRec mergeW ⟨8, 1⟩ (by decide) (by decide) rfl (by decide)
      (by decide) rfl rfl (by decide)⟩

/-- Claim C10 (confirmed): each name-keyed chain lookup stops at the first
entry whose key field is null (a wildcard) or equal to the searched name —
it does not skip keyless entries — and `getCommandNode` returns the head
for a null searched name. -/
theorem claim10 :
    (∀ (l : List Unit) (nm : String), getUnitNode l nm = l.find? (unitHit nm)) ∧
    (∀ (l : List Macro) (nm : String), getMacroNode l nm = l.find? (macroHit nm)) ∧
    (∀ (l : List ICmd) (nm : String), getIcmdNode l nm = l.find? (icmdHit nm)) ∧
    (∀ (l : List Command) (nm : String),
      getCommandNode l (some nm) = l.find? (cmdHit nm)) ∧
    (∀ l : List Command, getCommandNode l none = l.head?) :=
  ⟨getUnitNode_eq_find, getMacroNode_eq_find, getIcmdNode_eq_find,
    getCommandNode_eq_find, getCommandNode_none_eq_head⟩

end VC
